import Mathlib

/-!
Verification of the lingsheng ringtone editor's audio rendering and
encoding core.

Shallow embedding of:
* `src/services/audioUtils.ts` : `audioBufferToWav`, `interleave`,
  `encodeWAV`, `floatTo16BitPCM`, `audioBufferToMp3`;
* `src/components/WaveformEditor.tsx` : `processAudioRegion`,
  `handleDownload`, and the preview playhead tick of `handlePreviewEffect`.

Sample values are embedded as rationals where the code is pure arithmetic
(the byte-level encoders) and as reals where the code uses transcendental
functions (the renderer's pitch factor `2 ^ (pitch / 12)`).
-/

namespace Lingsheng

/-- JavaScript truncation toward zero on rationals, as applied by
`DataView.setInt16` and `Int16Array` stores before wrapping. -/
def jsTrunc (x : ℚ) : ℤ := if x < 0 then -⌊-x⌋ else ⌊x⌋

/-- WebIDL ToInt16: truncate toward zero, wrap modulo 2^16 into the signed
16-bit range. -/
def toInt16 (x : ℚ) : ℤ :=
  let n := jsTrunc x % 65536
  if 32768 ≤ n then n - 65536 else n

/-- `Math.max(-1, Math.min(1, x))`: clamp a float sample to [-1, 1]. -/
def clamp1 (x : ℚ) : ℚ := max (-1) (min 1 x)

/-- The per-sample conversion of `floatTo16BitPCM` (audioUtils.ts:139-144):
`const s = Math.max(-1, Math.min(1, input[i]));
 output.setInt16(offset, s < 0 ? s * 0x8000 : s * 0x7FFF, true)`. -/
def floatTo16BitPCM (x : ℚ) : ℤ :=
  let s := clamp1 x
  toInt16 (if s < 0 then s * 32768 else s * 32767)

/-- Little-endian bytes of a 16-bit field as `DataView.setUint16` writes them. -/
def u16le (v : ℕ) : List ℕ := [v % 256, v / 256 % 256]

/-- Little-endian bytes of a 32-bit field as `DataView.setUint32` writes them. -/
def u32le (v : ℕ) : List ℕ :=
  [v % 256, v / 256 % 256, v / 65536 % 256, v / 16777216 % 256]

/-- Bytes written by `writeString` (audioUtils.ts:4-8): `charCodeAt` of each
character. -/
def asciiBytes (s : String) : List ℕ := s.toList.map Char.toNat

/-- The 44 header bytes laid down by `encodeWAV` (audioUtils.ts:96-128). -/
def wavHeaderBytes (numSamples format sampleRate numChannels bitDepth : ℕ) : List ℕ :=
  let bytesPerSample := bitDepth / 8
  let blockAlign := numChannels * bytesPerSample
  asciiBytes "RIFF" ++ u32le (36 + numSamples * bytesPerSample)
    ++ asciiBytes "WAVE" ++ asciiBytes "fmt " ++ u32le 16
    ++ u16le format ++ u16le numChannels ++ u32le sampleRate
    ++ u32le (sampleRate * blockAlign) ++ u16le blockAlign ++ u16le bitDepth
    ++ asciiBytes "data" ++ u32le (numSamples * bytesPerSample)

/-- A decoded Web Audio `AudioBuffer`: per-channel float samples plus a
sample rate.  All channels of a real `AudioBuffer` have equal length. -/
structure AudioBuffer where
  channels : List (List ℚ)
  sampleRate : ℕ

def AudioBuffer.numberOfChannels (b : AudioBuffer) : ℕ := b.channels.length

def AudioBuffer.getChannelData (b : AudioBuffer) (i : ℕ) : List ℚ :=
  b.channels.getD i []

/-- `interleave` (audioUtils.ts:81-94): frame-by-frame stereo interleaving.
The source loop writes the pair `L[i], R[i]` for `i = 0, 1, …`; the channels
of an `AudioBuffer` always have equal length, which this structural recursion
models. -/
def interleave : List ℚ → List ℚ → List ℚ
  | a :: as, b :: bs => a :: b :: interleave as bs
  | _, _ => []

/-- The observable content of the Blob `encodeWAV` returns: its 44 header
bytes, the sample sequence serialized after them, and the MIME type (the
per-sample PCM16 byte conversion is `floatTo16BitPCM`). -/
structure EncodedWav where
  header : List ℕ
  samples : List ℚ
  mimeType : String

/-- `encodeWAV` (audioUtils.ts:96-137). -/
def encodeWAV (samples : List ℚ) (format sampleRate numChannels bitDepth : ℕ) :
    EncodedWav :=
  { header := wavHeaderBytes samples.length format sampleRate numChannels bitDepth,
    samples := samples,
    mimeType := "audio/wav" }

/-- `audioBufferToWav` (audioUtils.ts:13-27), called without options
everywhere in the repository: format 1 (PCM), bit depth 16. -/
def audioBufferToWav (b : AudioBuffer) : EncodedWav :=
  let numChannels := b.numberOfChannels
  let result := if numChannels = 2
    then interleave (b.getChannelData 0) (b.getChannelData 1)
    else b.getChannelData 0
  encodeWAV result 1 b.sampleRate numChannels 16

/-- The `lamejs.Mp3Encoder` primitive: `encodeBuffer` takes one (mono) or two
(stereo) Int16 channel arrays and returns compressed bytes; `flush` returns
the final block. -/
structure Mp3Encoder where
  encodeBuffer : List ℤ → Option (List ℤ) → List ℕ
  flush : List ℕ

/-- The Blob produced by the MP3 path: its bytes and MIME type. -/
structure Mp3Blob where
  bytes : List ℕ
  mimeType : String

/-- The MP3 path's sample conversion (audioUtils.ts:53):
`Math.max(-1, Math.min(1, x)) * 32767.5` stored into an `Int16Array`. -/
def mp3Int16 (x : ℚ) : ℤ := toInt16 (clamp1 x * (32767.5 : ℚ))

/-- `audioBufferToMp3` (audioUtils.ts:32-79).  `lamejs` is the globally loaded
encoder constructor (`new lamejs.Mp3Encoder(channels, sampleRate, kbps)`), or
`none` when the library is not loaded. -/
def audioBufferToMp3 (lamejs : Option (ℕ → ℕ → ℕ → Mp3Encoder))
    (b : AudioBuffer) : Except String Mp3Blob :=
  match lamejs with
  | none => Except.error "lamejs library not loaded"
  | some mk =>
    let enc := mk b.numberOfChannels b.sampleRate 192
    let sampleLeft := (b.getChannelData 0).map mp3Int16
    let sampleBlock :=
      if b.numberOfChannels = 2 then
        enc.encodeBuffer sampleLeft (some ((b.getChannelData 1).map mp3Int16))
      else
        enc.encodeBuffer sampleLeft none
    let mp3Data := (if 0 < sampleBlock.length then [sampleBlock] else [])
        ++ (if 0 < enc.flush.length then [enc.flush] else [])
    Except.ok { bytes := mp3Data.flatten, mimeType := "audio/mp3" }

/-- The two export formats offered by the download selector. -/
inductive ExportFormat where
  | wav
  | mp3

/-- `handleDownload` (WaveformEditor.tsx:559-589), abstracted over the encoder
functions: `none` means the handler returned before invoking any encoder
(empty region); `some (Except.error e)` means the try/catch caught an encoder
failure (alert shown, nothing downloaded); `some (Except.ok blob)` means a
blob was produced for download. -/
def handleDownload {α β : Type} (processed : Option α) (encodeToWav : α → β)
    (encodeToMp3 : α → Except String β) (fmt : ExportFormat) :
    Option (Except String β) :=
  match processed with
  | none => none
  | some buf =>
    match fmt with
    | ExportFormat.wav => some (Except.ok (encodeToWav buf))
    | ExportFormat.mp3 => some (encodeToMp3 buf)

/-- `Math.pow(2, pitch / 12)` (WaveformEditor.tsx:458). -/
noncomputable def detuneFactor (pitch : ℝ) : ℝ := (2 : ℝ) ^ (pitch / 12)

/-- `effectiveRate = speed * detuneFactor` (WaveformEditor.tsx:459). -/
noncomputable def effectiveRate (speed pitch : ℝ) : ℝ := speed * detuneFactor pitch

/-- `outputDuration = duration / effectiveRate` (WaveformEditor.tsx:460). -/
noncomputable def outputDuration (rstart rend speed pitch : ℝ) : ℝ :=
  (rend - rstart) / effectiveRate speed pitch

/-- JavaScript truncation toward zero on reals: the WebIDL unsigned-long
conversion applied to the `OfflineAudioContext` length argument. -/
noncomputable def jsTruncR (x : ℝ) : ℤ := if x < 0 then -⌊-x⌋ else ⌊x⌋

/-- Frames per channel of the `OfflineAudioContext` allocated at
WaveformEditor.tsx:462-466: `outputDuration * audioBuffer.sampleRate`. -/
noncomputable def renderLength (rstart rend speed pitch sampleRate : ℝ) : ℤ :=
  jsTruncR (outputDuration rstart rend speed pitch * sampleRate)

/-- Web Audio `AudioParam` automation events used by `processAudioRegion`. -/
inductive AudioParamEvent where
  | setValueAtTime (v : ℝ) (t : ℝ)
  | linearRampToValueAtTime (v : ℝ) (t : ℝ)

/-- Value of an automation timeline at time `t`, starting from value `v0` set
at time `t0`: `setValueAtTime` holds its value from its event time on, and
`linearRampToValueAtTime` interpolates linearly from the previous event. -/
noncomputable def valueAt : ℝ → ℝ → List AudioParamEvent → ℝ → ℝ
  | v0, _, [], _ => v0
  | v0, _, AudioParamEvent.setValueAtTime v τ :: rest, t =>
      if t < τ then v0 else valueAt v τ rest t
  | v0, t0, AudioParamEvent.linearRampToValueAtTime v τ :: rest, t =>
      if t < τ then v0 + (v - v0) * (t - t0) / (τ - t0) else valueAt v τ rest t

/-- The gain automation `processAudioRegion` schedules
(WaveformEditor.tsx:480-495). -/
noncomputable def gainSchedule (volume fadeIn fadeOut D : ℝ) :
    List AudioParamEvent :=
  [AudioParamEvent.setValueAtTime 0 0]
    ++ (if 0 < fadeIn then
          [AudioParamEvent.linearRampToValueAtTime volume (min fadeIn (D / 2))]
        else
          [AudioParamEvent.setValueAtTime volume 0])
    ++ (if 0 < fadeOut then
          [AudioParamEvent.setValueAtTime volume (D - min fadeOut (D / 2)),
           AudioParamEvent.linearRampToValueAtTime 0 D]
        else [])

/-- The rendered gain envelope over the output timeline: the gain node's value
at time `t` (initial `AudioParam` value 1). -/
noncomputable def gainEnvelope (volume fadeIn fadeOut D t : ℝ) : ℝ :=
  valueAt 1 0 (gainSchedule volume fadeIn fadeOut D) t

/-- The effective fade span: `min(requested, outputDuration / 2)` when a fade
is requested (`fadeInDuration > 0` in the source), zero width otherwise. -/
noncomputable def safeFade (f D : ℝ) : ℝ := if 0 < f then min f (D / 2) else 0

/-- The observable result of `processAudioRegion`: channel count, frames per
channel, sample rate, and the gain envelope applied over the output timeline. -/
structure RenderedBuffer where
  numberOfChannels : ℕ
  length : ℤ
  sampleRate : ℝ
  gain : ℝ → ℝ

/-- `processAudioRegion` (WaveformEditor.tsx:452-498). -/
noncomputable def processAudioRegion
    (rstart rend speed pitch volume fadeIn fadeOut sampleRate : ℝ)
    (numChannels : ℕ) : Option RenderedBuffer :=
  let duration := rend - rstart
  if duration ≤ 0 then none
  else
    let D := outputDuration rstart rend speed pitch
    some { numberOfChannels := numChannels,
           length := jsTruncR (D * sampleRate),
           sampleRate := sampleRate,
           gain := gainEnvelope volume fadeIn fadeOut D }

/-- The preview playhead update of `handlePreviewEffect`
(WaveformEditor.tsx:537-552): `none` when the tick returns without updating
the playhead (`elapsed > duration`), otherwise the waveform time it sets. -/
noncomputable def previewTick (regionStart regionDuration duration elapsed : ℝ) :
    Option ℝ :=
  if duration < elapsed then none
  else some (regionStart + elapsed / duration * regionDuration)

/-! Helper lemmas about truncation and clamping. -/

/-- Within the signed 16-bit range, the ToInt16 wrap is the identity. -/
theorem toInt16_eq_jsTrunc (x : ℚ) (h1 : -32768 ≤ jsTrunc x)
    (h2 : jsTrunc x ≤ 32767) : toInt16 x = jsTrunc x := by
  unfold toInt16
  dsimp only
  split_ifs with h <;> omega

theorem jsTrunc_nonneg_eq_floor (x : ℚ) (h : 0 ≤ x) : jsTrunc x = ⌊x⌋ := by
  unfold jsTrunc
  rw [if_neg (not_lt.mpr h)]

theorem jsTrunc_neg_eq (x : ℚ) (h : x < 0) : jsTrunc x = -⌊-x⌋ := by
  unfold jsTrunc
  rw [if_pos h]

theorem clamp1_lt_zero_iff (x : ℚ) : clamp1 x < 0 ↔ x < 0 := by
  unfold clamp1
  constructor
  · intro h
    by_contra hx
    push_neg at hx
    have : (0 : ℚ) ≤ max (-1) (min 1 x) :=
      le_max_of_le_right (le_min (by norm_num) hx)
    exact absurd h (not_lt.mpr this)
  · intro h
    have h1 : min 1 x = x := min_eq_right (le_of_lt (lt_trans h (by norm_num)))
    rw [h1]
    exact max_lt (by norm_num) h

theorem clamp1_mem (x : ℚ) : -1 ≤ clamp1 x ∧ clamp1 x ≤ 1 := by
  unfold clamp1
  exact ⟨le_max_left _ _, max_le (by norm_num) (min_le_left _ _)⟩

/-- The scaled, truncated WAV sample always lies in the signed 16-bit range. -/
theorem jsTrunc_scaled_mem (x : ℚ) :
    -32768 ≤ jsTrunc (if clamp1 x < 0 then clamp1 x * 32768 else clamp1 x * 32767) ∧
    jsTrunc (if clamp1 x < 0 then clamp1 x * 32768 else clamp1 x * 32767) ≤ 32767 := by
  obtain ⟨hlo, hhi⟩ := clamp1_mem x
  by_cases h : clamp1 x < 0
  · rw [if_pos h]
    have hy : clamp1 x * 32768 < 0 := by nlinarith
    rw [jsTrunc_neg_eq _ hy]
    have h1 : -(clamp1 x * 32768) ≤ 32768 := by nlinarith
    have h2 : (0 : ℚ) ≤ -(clamp1 x * 32768) := by nlinarith
    have h3 : ⌊-(clamp1 x * 32768)⌋ ≤ 32768 := by
      calc ⌊-(clamp1 x * 32768)⌋ ≤ ⌊(32768 : ℚ)⌋ := Int.floor_le_floor h1
        _ = 32768 := by norm_num
    have h4 : 0 ≤ ⌊-(clamp1 x * 32768)⌋ := Int.floor_nonneg.mpr h2
    omega
  · rw [if_neg h]
    push_neg at h
    have hy : (0 : ℚ) ≤ clamp1 x * 32767 := by nlinarith
    rw [jsTrunc_nonneg_eq_floor _ hy]
    have h1 : clamp1 x * 32767 ≤ 32767 := by nlinarith
    have h3 : ⌊clamp1 x * 32767⌋ ≤ 32767 := by
      calc ⌊clamp1 x * 32767⌋ ≤ ⌊(32767 : ℚ)⌋ := Int.floor_le_floor h1
        _ = 32767 := by norm_num
    have h4 : 0 ≤ ⌊clamp1 x * 32767⌋ := Int.floor_nonneg.mpr hy
    omega

/-- C4: WAV PCM16 quantization first clamps the sample to [-1, 1], then scales
by 32768 for negative samples and by 32767 otherwise, truncating to an
integer; every emitted sample lies in [-32768, 32767], and inputs outside
[-1, 1] clip rather than wrap. -/
theorem floatTo16BitPCM_spec (x : ℚ) :
    floatTo16BitPCM x
        = jsTrunc (if x < 0 then clamp1 x * 32768 else clamp1 x * 32767) ∧
    -32768 ≤ floatTo16BitPCM x ∧ floatTo16BitPCM x ≤ 32767 ∧
    (1 ≤ x → floatTo16BitPCM x = 32767) ∧
    (x ≤ -1 → floatTo16BitPCM x = -32768) := by
  have hiff := clamp1_lt_zero_iff x
  have hmem := jsTrunc_scaled_mem x
  have hrepr : floatTo16BitPCM x
      = jsTrunc (if clamp1 x < 0 then clamp1 x * 32768 else clamp1 x * 32767) := by
    unfold floatTo16BitPCM
    dsimp only
    exact toInt16_eq_jsTrunc _ hmem.1 hmem.2
  have hcond : (if clamp1 x < 0 then clamp1 x * 32768 else clamp1 x * 32767)
      = (if x < 0 then clamp1 x * 32768 else clamp1 x * 32767) := by
    by_cases h : x < 0
    · rw [if_pos (hiff.mpr h), if_pos h]
    · rw [if_neg (fun hc => h (hiff.mp hc)), if_neg h]
  refine ⟨by rw [hrepr, hcond], by rw [hrepr]; exact hmem.1,
    by rw [hrepr]; exact hmem.2, ?_, ?_⟩
  · intro h1
    have hcl : clamp1 x = 1 := by
      unfold clamp1
      rw [min_eq_left h1, max_eq_right (by norm_num : (-1 : ℚ) ≤ 1)]
    rw [hrepr, hcl]
    norm_num [jsTrunc]
  · intro h1
    have hcl : clamp1 x = -1 := by
      unfold clamp1
      rw [min_eq_right (le_trans h1 (by norm_num)), max_eq_left h1]
    rw [hrepr, hcl]
    norm_num [jsTrunc]

/-- C5 counterexample: for the mono 1-second 44100 Hz zero buffer, the RIFF
size field (bytes 4-7) holds 88236 = 36 + dataSize, not 88244 as claimed. -/
theorem wav_riff_size_not_88244 :
    ((audioBufferToWav
        { channels := [List.replicate 44100 0], sampleRate := 44100 }).header.drop 4).take 4
      = u32le 88236 ∧ u32le 88236 ≠ u32le 88244 := by
  have hh : (audioBufferToWav
        { channels := [List.replicate 44100 0], sampleRate := 44100 }).header
      = wavHeaderBytes 44100 1 44100 1 16 := by
    simp only [audioBufferToWav, encodeWAV, AudioBuffer.numberOfChannels,
      AudioBuffer.getChannelData, List.length_cons, List.length_nil, List.getD,
      List.length_replicate]
    norm_num [List.get?]
  constructor
  · rw [hh]
    decide
  · decide

/-- C5 (amended): for a mono 1-second 44100 Hz buffer of zeros encoded as
PCM16 WAV, the 44 header bytes are exactly RIFF, riffSize 88236 (= 36 +
dataSize), WAVE, fmt-space, 16, format 1, channels 1, sampleRate 44100,
byteRate 88200, blockAlign 2, bits 16, data, dataSize 88200, little-endian;
in general riffSize = 36 + dataSize, byteRate = sampleRate * blockAlign and
blockAlign = channels * bytesPerSample. -/
theorem wav_header_spec :
    (audioBufferToWav
        { channels := [List.replicate 44100 0], sampleRate := 44100 }).header
      = [82, 73, 70, 70, 172, 88, 1, 0, 87, 65, 86, 69, 102, 109, 116, 32,
         16, 0, 0, 0, 1, 0, 1, 0, 68, 172, 0, 0, 136, 88, 1, 0, 2, 0, 16, 0,
         100, 97, 116, 97, 136, 88, 1, 0] ∧
    (∀ numSamples fmtTag sampleRate numChannels bitDepth : ℕ,
      wavHeaderBytes numSamples fmtTag sampleRate numChannels bitDepth
        = asciiBytes "RIFF" ++ u32le (36 + numSamples * (bitDepth / 8))
          ++ asciiBytes "WAVE" ++ asciiBytes "fmt " ++ u32le 16
          ++ u16le fmtTag ++ u16le numChannels ++ u32le sampleRate
          ++ u32le (sampleRate * (numChannels * (bitDepth / 8)))
          ++ u16le (numChannels * (bitDepth / 8)) ++ u16le bitDepth
          ++ asciiBytes "data" ++ u32le (numSamples * (bitDepth / 8))) := by
  have hh : (audioBufferToWav
        { channels := [List.replicate 44100 0], sampleRate := 44100 }).header
      = wavHeaderBytes 44100 1 44100 1 16 := by
    simp only [audioBufferToWav, encodeWAV, AudioBuffer.numberOfChannels,
      AudioBuffer.getChannelData, List.length_cons, List.length_nil, List.getD,
      List.length_replicate]
    norm_num [List.get?]
  constructor
  · rw [hh]
    decide
  · intro ns f sr nc bd
    rfl

/-- Frame-by-frame layout of `interleave`: even positions hold channel 0,
odd positions hold channel 1. -/
theorem interleave_frame_layout (l r : List ℚ) (h : l.length = r.length) :
    ∀ i : ℕ, i < l.length →
      (interleave l r)[2 * i]? = l[i]? ∧ (interleave l r)[2 * i + 1]? = r[i]? := by
  induction l generalizing r with
  | nil =>
    intro i hi
    exact absurd hi (by simp)
  | cons a as ih =>
    cases r with
    | nil => exact absurd h (by simp)
    | cons b bs =>
      intro i hi
      cases i with
      | zero => simp [interleave]
      | succ j =>
        have hj : j < as.length := by
          simpa using Nat.lt_of_succ_lt_succ hi
        have hlen : as.length = bs.length := by simpa using h
        have hstep := ih bs hlen j hj
        have e1 : 2 * (j + 1) = 2 * j + 1 + 1 := by ring
        have e2 : 2 * (j + 1) + 1 = 2 * j + 1 + 1 + 1 := by ring
        constructor
        · rw [e1]
          simpa [interleave] using hstep.1
        · rw [e2]
          simpa [interleave] using hstep.2

/-- C10: the WAV encoder interleaves frame-by-frame exactly when the buffer
has 2 channels; for every other channel count it serializes only channel 0,
while the header still declares the buffer's full channel count (bytes 22-23),
so a buffer with more than 2 channels yields fewer samples than its declared
channel count requires. -/
theorem wav_channel_handling_spec (b : AudioBuffer) :
    ((audioBufferToWav b).samples
        = if b.numberOfChannels = 2
          then interleave (b.getChannelData 0) (b.getChannelData 1)
          else b.getChannelData 0) ∧
    ((audioBufferToWav b).header.drop 22).take 2 = u16le b.numberOfChannels ∧
    (∀ l r : List ℚ, l.length = r.length → ∀ i : ℕ, i < l.length →
        (interleave l r)[2 * i]? = l[i]? ∧ (interleave l r)[2 * i + 1]? = r[i]?) ∧
    (2 < b.numberOfChannels → b.getChannelData 0 ≠ [] →
        (audioBufferToWav b).samples.length
          ≠ b.numberOfChannels * (b.getChannelData 0).length) := by
  refine ⟨rfl, rfl, interleave_frame_layout, ?_⟩
  intro h2 hne
  have hsamp : (audioBufferToWav b).samples = b.getChannelData 0 := by
    show (if b.numberOfChannels = 2
        then interleave (b.getChannelData 0) (b.getChannelData 1)
        else b.getChannelData 0) = b.getChannelData 0
    rw [if_neg (by omega)]
  rw [hsamp]
  have hn : 0 < (b.getChannelData 0).length := List.length_pos.mpr hne
  have h3 : 3 ≤ b.numberOfChannels := h2
  have hmul : 3 * (b.getChannelData 0).length
      ≤ b.numberOfChannels * (b.getChannelData 0).length :=
    Nat.mul_le_mul_right _ h3
  intro heq
  omega

/-- The conditional pushes of `audioBufferToMp3` concatenate to
`sampleBlock ++ flush` in every case. -/
theorem mp3Data_flatten (block fl : List ℕ) :
    ((if 0 < block.length then [block] else [])
        ++ (if 0 < fl.length then [fl] else [])).flatten = block ++ fl := by
  by_cases h1 : 0 < block.length <;> by_cases h2 : 0 < fl.length
  · rw [if_pos h1, if_pos h2]
    simp
  · rw [if_pos h1, if_neg h2]
    have : fl = [] := List.eq_nil_of_length_eq_zero (by omega)
    simp [this]
  · rw [if_neg h1, if_pos h2]
    have : block = [] := List.eq_nil_of_length_eq_zero (by omega)
    simp [this]
  · rw [if_neg h1, if_neg h2]
    have hb : block = [] := List.eq_nil_of_length_eq_zero (by omega)
    have hf : fl = [] := List.eq_nil_of_length_eq_zero (by omega)
    simp [hb, hf]

/-- The MP3 path's scaled, truncated sample stays in the signed 16-bit
range, so the Int16Array store does not wrap. -/
theorem mp3_scaled_mem (x : ℚ) :
    -32767 ≤ jsTrunc (clamp1 x * (32767.5 : ℚ)) ∧
    jsTrunc (clamp1 x * (32767.5 : ℚ)) ≤ 32767 := by
  obtain ⟨hlo, hhi⟩ := clamp1_mem x
  by_cases h : clamp1 x * (32767.5 : ℚ) < 0
  · rw [jsTrunc_neg_eq _ h]
    have h1 : -(clamp1 x * (32767.5 : ℚ)) ≤ 32767.5 := by nlinarith
    have h2 : (0 : ℚ) ≤ -(clamp1 x * (32767.5 : ℚ)) := by nlinarith
    have h3 : ⌊-(clamp1 x * (32767.5 : ℚ))⌋ ≤ 32767 := by
      calc ⌊-(clamp1 x * (32767.5 : ℚ))⌋ ≤ ⌊(32767.5 : ℚ)⌋ := Int.floor_le_floor h1
        _ = 32767 := by norm_num
    have h4 : 0 ≤ ⌊-(clamp1 x * (32767.5 : ℚ))⌋ := Int.floor_nonneg.mpr h2
    omega
  · push_neg at h
    rw [jsTrunc_nonneg_eq_floor _ h]
    have h1 : clamp1 x * (32767.5 : ℚ) ≤ 32767.5 := by nlinarith
    have h3 : ⌊clamp1 x * (32767.5 : ℚ)⌋ ≤ 32767 := by
      calc ⌊clamp1 x * (32767.5 : ℚ)⌋ ≤ ⌊(32767.5 : ℚ)⌋ := Int.floor_le_floor h1
        _ = 32767 := by norm_num
    have h4 : 0 ≤ ⌊clamp1 x * (32767.5 : ℚ)⌋ := Int.floor_nonneg.mpr h
    omega

/-- C6: the MP3 adapter converts each sample by clamping to [-1, 1] and
scaling by 32767.5 with truncation on the Int16 store — a constant distinct
from the WAV path's 32768/32767 — and the emitted blob is the concatenation
of the compressed frames from the one or two channel arrays plus the final
flush block. -/
theorem mp3_adapter_spec :
    (∀ x : ℚ, mp3Int16 x = jsTrunc (clamp1 x * (32767.5 : ℚ))) ∧
    mp3Int16 (-1) ≠ floatTo16BitPCM (-1) ∧
    (∀ (mk : ℕ → ℕ → ℕ → Mp3Encoder) (b : AudioBuffer),
      audioBufferToMp3 (some mk) b
        = Except.ok
            { bytes :=
                (if b.numberOfChannels = 2 then
                    (mk b.numberOfChannels b.sampleRate 192).encodeBuffer
                      ((b.getChannelData 0).map mp3Int16)
                      (some ((b.getChannelData 1).map mp3Int16))
                  else
                    (mk b.numberOfChannels b.sampleRate 192).encodeBuffer
                      ((b.getChannelData 0).map mp3Int16) none)
                  ++ (mk b.numberOfChannels b.sampleRate 192).flush,
              mimeType := "audio/mp3" }) := by
  refine ⟨?_, ?_, ?_⟩
  · intro x
    have hmem := mp3_scaled_mem x
    unfold mp3Int16
    exact toInt16_eq_jsTrunc _ (by omega) hmem.2
  · have h1 : mp3Int16 (-1) = -32767 := by
      have : clamp1 (-1) = -1 := by norm_num [clamp1]
      unfold mp3Int16
      rw [this]
      norm_num [toInt16, jsTrunc]
    have h2 : floatTo16BitPCM (-1) = -32768 := by
      have : clamp1 (-1) = -1 := by norm_num [clamp1]
      unfold floatTo16BitPCM
      dsimp only
      rw [this]
      norm_num [toInt16, jsTrunc]
    rw [h1, h2]
    omega
  · intro mk b
    unfold audioBufferToMp3
    dsimp only
    rw [mp3Data_flatten]

/-- C7 counterexample: at a concrete encoder and buffer, the MIME type of the
MP3 blob is audio/mp3, not audio/mpeg as claimed. -/
theorem mp3_mimeType_not_mpeg :
    (audioBufferToMp3
          (some fun _ _ _ => { encodeBuffer := fun _ _ => [1], flush := [2] })
          { channels := [[0]], sampleRate := 8000 }).map Mp3Blob.mimeType
      ≠ Except.ok "audio/mpeg" := by
  intro h
  simp [audioBufferToMp3, Except.map] at h

/-- C7 (amended): for every encoder and input buffer, the blob returned by
the MP3 encoding adapter carries the MIME type audio/mp3. -/
theorem mp3_mimeType_spec :
    ∀ (mk : ℕ → ℕ → ℕ → Mp3Encoder) (b : AudioBuffer),
      (audioBufferToMp3 (some mk) b).map Mp3Blob.mimeType
        = Except.ok "audio/mp3" := by
  intro mk b
  rfl

/-- C8: when lamejs is absent the MP3 encoder fails with an error before
producing any output and independently of the buffer; under `handleDownload`
the MP3 export attempt surfaces that error with no substituted fallback, and
the WAV branch's result does not depend on the MP3 encoder at all. -/
theorem mp3_encoder_unavailable_spec :
    (∀ b : AudioBuffer,
        audioBufferToMp3 none b = Except.error "lamejs library not loaded") ∧
    (∀ (b : AudioBuffer) (w : AudioBuffer → Mp3Blob),
        handleDownload (some b) w (audioBufferToMp3 none) ExportFormat.mp3
          = some (Except.error "lamejs library not loaded")) ∧
    (∀ (α β : Type) (p : Option α) (w : α → β)
        (m1 m2 : α → Except String β),
        handleDownload p w m1 ExportFormat.wav
          = handleDownload p w m2 ExportFormat.wav) := by
  refine ⟨fun b => rfl, fun b w => rfl, ?_⟩
  intro α β p w m1 m2
  cases p <;> rfl

/-- C3: for every region with `end - start ≤ 0`, `processAudioRegion`
produces no buffer (an explicit `none`), and the download handler then
returns before invoking any encoder, whatever the encoders and the chosen
format are. -/
theorem empty_region_spec
    (rstart rend speed pitch volume fadeIn fadeOut sampleRate : ℝ)
    (numChannels : ℕ) (h : rend - rstart ≤ 0) :
    processAudioRegion rstart rend speed pitch volume fadeIn fadeOut
        sampleRate numChannels = none ∧
    ∀ (β : Type) (encodeToWav : RenderedBuffer → β)
      (encodeToMp3 : RenderedBuffer → Except String β) (fmt : ExportFormat),
      handleDownload
          (processAudioRegion rstart rend speed pitch volume fadeIn fadeOut
            sampleRate numChannels)
          encodeToWav encodeToMp3 fmt = none := by
  have hp : processAudioRegion rstart rend speed pitch volume fadeIn fadeOut
      sampleRate numChannels = none := by
    unfold processAudioRegion
    dsimp only
    rw [if_pos h]
  refine ⟨hp, fun β ew em fmt => ?_⟩
  rw [hp]
  rfl

/-- C3 witness: the degenerate region [5, 3] renders no buffer and no
encoder is ever reached through the download handler. -/
theorem empty_region_witness :
    processAudioRegion 5 3 1 0 1 1 1 44100 2 = none ∧
    ∀ (β : Type) (encodeToWav : RenderedBuffer → β)
      (encodeToMp3 : RenderedBuffer → Except String β) (fmt : ExportFormat),
      handleDownload (processAudioRegion 5 3 1 0 1 1 1 44100 2)
          encodeToWav encodeToMp3 fmt = none :=
  empty_region_spec 5 3 1 0 1 1 1 44100 2 (by norm_num)

/-- C9 counterexample: at `elapsed = outputDuration` (here both 1) the tick
still updates the playhead — to `start + regionDuration` — instead of having
stopped, so updates do not stop at `elapsed ≥ outputDuration`. -/
theorem previewTick_at_duration :
    previewTick 0 1 1 1 = some 1 ∧ previewTick 0 1 1 1 ≠ none := by
  have h : previewTick 0 1 1 1 = some 1 := by
    unfold previewTick
    rw [if_neg (lt_irrefl (1 : ℝ))]
    norm_num
  exact ⟨h, by rw [h]; exact Option.some_ne_none 1⟩

/-- C9 (amended): for every elapsed time with `elapsed ≤ outputDuration` the
preview playhead projection equals
`region.start + (elapsed / outputDuration) * regionDuration`, and the
projection stops (no further playhead update) exactly once
`elapsed > outputDuration`. -/
theorem previewTick_spec (regionStart regionDuration duration elapsed : ℝ) :
    (elapsed ≤ duration →
      previewTick regionStart regionDuration duration elapsed
        = some (regionStart + elapsed / duration * regionDuration)) ∧
    (duration < elapsed →
      previewTick regionStart regionDuration duration elapsed = none) := by
  unfold previewTick
  constructor
  · intro h
    rw [if_neg (not_lt.mpr h)]
  · intro h
    rw [if_pos h]

/-- C1: for every region with `end > start` and valid effect parameters, the
rendered buffer's per-channel length is the truncation of
`(end - start) / (speed * 2 ^ (pitch / 12)) * sampleRate`, which is within
±1 sample of the rounded value; pitch and speed multiply into one effective
rate, so region [0, 10] with speed 1 and pitch 12 yields a 5-second output. -/
theorem render_length_spec
    (rstart rend speed pitch volume fadeIn fadeOut sampleRate : ℝ)
    (numChannels : ℕ) (hr : rstart < rend) (hs1 : 1 / 2 ≤ speed)
    (_hs2 : speed ≤ 2) (_hp1 : -12 ≤ pitch) (_hp2 : pitch ≤ 12)
    (hsr : 0 < sampleRate) :
    Option.map RenderedBuffer.length
        (processAudioRegion rstart rend speed pitch volume fadeIn fadeOut
          sampleRate numChannels)
      = some (renderLength rstart rend speed pitch sampleRate) ∧
    |renderLength rstart rend speed pitch sampleRate
        - round ((rend - rstart) / (speed * (2 : ℝ) ^ (pitch / 12))
            * sampleRate)| ≤ 1 ∧
    outputDuration 0 10 1 12 = 5 := by
  have heff : 0 < effectiveRate speed pitch := by
    unfold effectiveRate detuneFactor
    exact mul_pos (by linarith) (Real.rpow_pos_of_pos (by norm_num) _)
  have hd : 0 < rend - rstart := by linarith
  refine ⟨?_, ?_, ?_⟩
  · unfold processAudioRegion
    dsimp only
    rw [if_neg (not_le.mpr hd)]
    rfl
  · have hx : 0 ≤ outputDuration rstart rend speed pitch * sampleRate :=
      mul_nonneg (div_nonneg hd.le heff.le) hsr.le
    have hform : (rend - rstart) / (speed * (2 : ℝ) ^ (pitch / 12)) * sampleRate
        = outputDuration rstart rend speed pitch * sampleRate := rfl
    rw [hform]
    set x := outputDuration rstart rend speed pitch * sampleRate with hxdef
    have htr : renderLength rstart rend speed pitch sampleRate = ⌊x⌋ := by
      unfold renderLength jsTruncR
      rw [if_neg (not_lt.mpr hx)]
    rw [htr, round_eq]
    have h3 : ⌊x⌋ ≤ ⌊x + 1 / 2⌋ := Int.floor_le_floor (by linarith)
    have h4 : ⌊x + 1 / 2⌋ ≤ ⌊x⌋ + 1 := by
      have h5 : ⌊x + 1 / 2⌋ ≤ ⌊x + 1⌋ := Int.floor_le_floor (by linarith)
      have h6 : ⌊x + (1 : ℝ)⌋ = ⌊x⌋ + 1 := by
        rw [Int.floor_add_one]
      omega
    rw [abs_le]
    constructor <;> [linarith; linarith]
  · unfold outputDuration effectiveRate detuneFactor
    have h12 : ((12 : ℝ) / 12) = 1 := by norm_num
    rw [h12, Real.rpow_one]
    norm_num

/-- C1 witness: region [0, 10] at speed 1 and pitch 12. -/
theorem render_length_witness :
    Option.map RenderedBuffer.length (processAudioRegion 0 10 1 12 1 1 1 44100 2)
      = some (renderLength 0 10 1 12 44100) ∧
    |renderLength 0 10 1 12 44100
        - round ((10 - 0) / (1 * (2 : ℝ) ^ ((12 : ℝ) / 12)) * 44100)| ≤ 1 ∧
    outputDuration 0 10 1 12 = 5 :=
  render_length_spec 0 10 1 12 1 1 1 44100 2 (by norm_num) (by norm_num)
    (by norm_num) (by norm_num) (by norm_num) (by norm_num)

theorem valueAt_nil (v0 t0 t : ℝ) : valueAt v0 t0 [] t = v0 := rfl

theorem valueAt_set (v0 t0 v τ : ℝ) (rest : List AudioParamEvent) (t : ℝ) :
    valueAt v0 t0 (AudioParamEvent.setValueAtTime v τ :: rest) t
      = if t < τ then v0 else valueAt v τ rest t := rfl

theorem valueAt_ramp (v0 t0 v τ : ℝ) (rest : List AudioParamEvent) (t : ℝ) :
    valueAt v0 t0 (AudioParamEvent.linearRampToValueAtTime v τ :: rest) t
      = if t < τ then v0 + (v - v0) * (t - t0) / (τ - t0)
        else valueAt v τ rest t := rfl

/-- Between the fade-in ramp's end and the fade-out's start the held value is
the ramp target `vol`. -/
theorem valueAt_plateau (vol t0 fos D t : ℝ) (h2 : t ≤ fos) (h3 : fos < D) :
    valueAt vol t0 [AudioParamEvent.setValueAtTime vol fos,
      AudioParamEvent.linearRampToValueAtTime 0 D] t = vol := by
  rw [valueAt_set]
  by_cases h : t < fos
  · rw [if_pos h]
  · rw [if_neg h]
    have ht : t = fos := le_antisymm h2 (not_lt.mp h)
    rw [valueAt_ramp, if_pos (lt_of_le_of_lt h2 h3)]
    rw [ht]
    simp

/-- The linear fade-out ramp from `(fos, vol)` to `(D, 0)`. -/
theorem valueAt_rampdown (vol fos D t : ℝ) (hso : fos < D) (_h1 : fos ≤ t)
    (h2 : t ≤ D) :
    valueAt vol fos [AudioParamEvent.linearRampToValueAtTime 0 D] t
      = vol * ((D - t) / (D - fos)) := by
  rw [valueAt_ramp]
  by_cases h : t < D
  · rw [if_pos h]
    have hne : D - fos ≠ 0 := by linarith
    field_simp
    ring
  · rw [if_neg h, valueAt_nil]
    have ht : t = D := le_antisymm h2 (not_lt.mp h)
    rw [ht]
    simp

/-- C2: the rendered gain envelope is a linear ramp from 0 to `volume` over
`[0, min(fadeIn, D/2)]` when a fade-in is requested, the constant `volume`
between the ramps (from `t = 0` when `fadeIn = 0`), and a linear ramp from
`volume` to 0 over the final `min(fadeOut, D/2)` when a fade-out is
requested; the value at `t = 0` is 0 iff `fadeIn > 0` and the value at
`t = D` is 0 iff `fadeOut > 0`. -/
theorem gain_envelope_spec (volume fadeIn fadeOut D : ℝ) (hD : 0 < D)
    (hv : 0 < volume) :
    (∀ t : ℝ, 0 < fadeIn → 0 ≤ t → t ≤ min fadeIn (D / 2) →
        gainEnvelope volume fadeIn fadeOut D t
          = volume * (t / min fadeIn (D / 2))) ∧
    (∀ t : ℝ, safeFade fadeIn D ≤ t → t ≤ D - safeFade fadeOut D →
        gainEnvelope volume fadeIn fadeOut D t = volume) ∧
    (∀ t : ℝ, 0 < fadeOut → D - min fadeOut (D / 2) ≤ t → t ≤ D →
        gainEnvelope volume fadeIn fadeOut D t
          = volume * ((D - t) / min fadeOut (D / 2))) ∧
    (gainEnvelope volume fadeIn fadeOut D 0 = 0 ↔ 0 < fadeIn) ∧
    (gainEnvelope volume fadeIn fadeOut D D = 0 ↔ 0 < fadeOut) := by
  by_cases hfi : 0 < fadeIn <;> by_cases hfo : 0 < fadeOut
  · -- fade-in and fade-out both requested
    have hsi : 0 < min fadeIn (D / 2) := lt_min hfi (by linarith)
    have hso : 0 < min fadeOut (D / 2) := lt_min hfo (by linarith)
    have hsiD : min fadeIn (D / 2) ≤ D / 2 := min_le_right _ _
    have hsoD : min fadeOut (D / 2) ≤ D / 2 := min_le_right _ _
    have hfos : min fadeIn (D / 2) ≤ D - min fadeOut (D / 2) := by linarith
    have hfosD : D - min fadeOut (D / 2) < D := by linarith
    have hsched : gainSchedule volume fadeIn fadeOut D
        = [AudioParamEvent.setValueAtTime 0 0,
           AudioParamEvent.linearRampToValueAtTime volume (min fadeIn (D / 2)),
           AudioParamEvent.setValueAtTime volume (D - min fadeOut (D / 2)),
           AudioParamEvent.linearRampToValueAtTime 0 D] := by
      unfold gainSchedule
      rw [if_pos hfi, if_pos hfo]
      rfl
    refine ⟨?_, ?_, ?_, ?_, ?_⟩
    · intro t _ h0 h1
      unfold gainEnvelope
      rw [hsched, valueAt_set, if_neg (not_lt.mpr h0), valueAt_ramp]
      by_cases ht : t < min fadeIn (D / 2)
      · rw [if_pos ht, sub_zero, sub_zero, sub_zero, zero_add, mul_div_assoc]
      · rw [if_neg ht]
        have ht2 : t = min fadeIn (D / 2) := le_antisymm h1 (not_lt.mp ht)
        rw [valueAt_plateau volume _ _ D t (by rw [ht2]; exact hfos) hfosD]
        rw [ht2, div_self (ne_of_gt hsi), mul_one]
    · intro t hl hu
      unfold safeFade at hl hu
      rw [if_pos hfi] at hl
      rw [if_pos hfo] at hu
      unfold gainEnvelope
      rw [hsched, valueAt_set, if_neg (not_lt.mpr (by linarith : (0 : ℝ) ≤ t)),
        valueAt_ramp, if_neg (not_lt.mpr hl)]
      exact valueAt_plateau volume _ _ D t hu hfosD
    · intro t _ hl hu
      unfold gainEnvelope
      rw [hsched, valueAt_set, if_neg (not_lt.mpr (by linarith : (0 : ℝ) ≤ t)),
        valueAt_ramp,
        if_neg (not_lt.mpr (by linarith : min fadeIn (D / 2) ≤ t)),
        valueAt_set, if_neg (not_lt.mpr hl)]
      rw [valueAt_rampdown volume (D - min fadeOut (D / 2)) D t hfosD hl hu]
      have hsub : D - (D - min fadeOut (D / 2)) = min fadeOut (D / 2) := by ring
      rw [hsub]
    · have h0 : gainEnvelope volume fadeIn fadeOut D 0 = 0 := by
        unfold gainEnvelope
        rw [hsched, valueAt_set, if_neg (lt_irrefl (0 : ℝ)), valueAt_ramp,
          if_pos hsi]
        simp
      exact iff_of_true h0 hfi
    · have hDv : gainEnvelope volume fadeIn fadeOut D D = 0 := by
        unfold gainEnvelope
        rw [hsched, valueAt_set, if_neg (not_lt.mpr hD.le), valueAt_ramp,
          if_neg (not_lt.mpr (by linarith : min fadeIn (D / 2) ≤ D)),
          valueAt_set, if_neg (not_lt.mpr (by linarith : D - min fadeOut (D / 2) ≤ D))]
        rw [valueAt_rampdown volume (D - min fadeOut (D / 2)) D D hfosD
          (by linarith) le_rfl]
        simp
      exact iff_of_true hDv hfo
  · -- fade-in only
    have hsi : 0 < min fadeIn (D / 2) := lt_min hfi (by linarith)
    have hsiD : min fadeIn (D / 2) ≤ D / 2 := min_le_right _ _
    have hsched : gainSchedule volume fadeIn fadeOut D
        = [AudioParamEvent.setValueAtTime 0 0,
           AudioParamEvent.linearRampToValueAtTime volume (min fadeIn (D / 2))] := by
      unfold gainSchedule
      rw [if_pos hfi, if_neg hfo]
      rfl
    refine ⟨?_, ?_, ?_, ?_, ?_⟩
    · intro t _ h0 h1
      unfold gainEnvelope
      rw [hsched, valueAt_set, if_neg (not_lt.mpr h0), valueAt_ramp]
      by_cases ht : t < min fadeIn (D / 2)
      · rw [if_pos ht, sub_zero, sub_zero, sub_zero, zero_add, mul_div_assoc]
      · rw [if_neg ht, valueAt_nil]
        have ht2 : t = min fadeIn (D / 2) := le_antisymm h1 (not_lt.mp ht)
        rw [ht2, div_self (ne_of_gt hsi), mul_one]
    · intro t hl _
      unfold safeFade at hl
      rw [if_pos hfi] at hl
      unfold gainEnvelope
      rw [hsched, valueAt_set, if_neg (not_lt.mpr (by linarith : (0 : ℝ) ≤ t)),
        valueAt_ramp, if_neg (not_lt.mpr hl), valueAt_nil]
    · intro t hfo2
      exact absurd hfo2 hfo
    · have h0 : gainEnvelope volume fadeIn fadeOut D 0 = 0 := by
        unfold gainEnvelope
        rw [hsched, valueAt_set, if_neg (lt_irrefl (0 : ℝ)), valueAt_ramp,
          if_pos hsi]
        simp
      exact iff_of_true h0 hfi
    · have hDv : gainEnvelope volume fadeIn fadeOut D D = volume := by
        unfold gainEnvelope
        rw [hsched, valueAt_set, if_neg (not_lt.mpr hD.le), valueAt_ramp,
          if_neg (not_lt.mpr (by linarith : min fadeIn (D / 2) ≤ D)), valueAt_nil]
      rw [hDv]
      exact iff_of_false (ne_of_gt hv) hfo
  · -- fade-out only
    have hso : 0 < min fadeOut (D / 2) := lt_min hfo (by linarith)
    have hsoD : min fadeOut (D / 2) ≤ D / 2 := min_le_right _ _
    have hfosD : D - min fadeOut (D / 2) < D := by linarith
    have hfos0 : 0 < D - min fadeOut (D / 2) := by linarith
    have hsched : gainSchedule volume fadeIn fadeOut D
        = [AudioParamEvent.setValueAtTime 0 0,
           AudioParamEvent.setValueAtTime volume 0,
           AudioParamEvent.setValueAtTime volume (D - min fadeOut (D / 2)),
           AudioParamEvent.linearRampToValueAtTime 0 D] := by
      unfold gainSchedule
      rw [if_neg hfi, if_pos hfo]
      rfl
    refine ⟨?_, ?_, ?_, ?_, ?_⟩
    · intro t hfi2
      exact absurd hfi2 hfi
    · intro t hl hu
      unfold safeFade at hl hu
      rw [if_neg hfi] at hl
      rw [if_pos hfo] at hu
      unfold gainEnvelope
      rw [hsched, valueAt_set, if_neg (not_lt.mpr hl), valueAt_set,
        if_neg (not_lt.mpr hl)]
      exact valueAt_plateau volume 0 _ D t hu hfosD
    · intro t _ hl hu
      have h0t : (0 : ℝ) ≤ t := by linarith
      unfold gainEnvelope
      rw [hsched, valueAt_set, if_neg (not_lt.mpr h0t), valueAt_set,
        if_neg (not_lt.mpr h0t), valueAt_set, if_neg (not_lt.mpr hl)]
      rw [valueAt_rampdown volume (D - min fadeOut (D / 2)) D t hfosD hl hu]
      have hsub : D - (D - min fadeOut (D / 2)) = min fadeOut (D / 2) := by ring
      rw [hsub]
    · have h0 : gainEnvelope volume fadeIn fadeOut D 0 = volume := by
        unfold gainEnvelope
        rw [hsched, valueAt_set, if_neg (lt_irrefl (0 : ℝ)), valueAt_set,
          if_neg (lt_irrefl (0 : ℝ)), valueAt_set, if_pos hfos0]
      rw [h0]
      exact iff_of_false (ne_of_gt hv) hfi
    · have hDv : gainEnvelope volume fadeIn fadeOut D D = 0 := by
        unfold gainEnvelope
        rw [hsched, valueAt_set, if_neg (not_lt.mpr hD.le), valueAt_set,
          if_neg (not_lt.mpr hD.le), valueAt_set,
          if_neg (not_lt.mpr (by linarith : D - min fadeOut (D / 2) ≤ D))]
        rw [valueAt_rampdown volume (D - min fadeOut (D / 2)) D D hfosD
          (by linarith) le_rfl]
        simp
      exact iff_of_true hDv hfo
  · -- neither fade requested
    have hsched : gainSchedule volume fadeIn fadeOut D
        = [AudioParamEvent.setValueAtTime 0 0,
           AudioParamEvent.setValueAtTime volume 0] := by
      unfold gainSchedule
      rw [if_neg hfi, if_neg hfo]
      rfl
    refine ⟨?_, ?_, ?_, ?_, ?_⟩
    · intro t hfi2
      exact absurd hfi2 hfi
    · intro t hl _
      unfold safeFade at hl
      rw [if_neg hfi] at hl
      unfold gainEnvelope
      rw [hsched, valueAt_set, if_neg (not_lt.mpr hl), valueAt_set,
        if_neg (not_lt.mpr hl), valueAt_nil]
    · intro t hfo2
      exact absurd hfo2 hfo
    · have h0 : gainEnvelope volume fadeIn fadeOut D 0 = volume := by
        unfold gainEnvelope
        rw [hsched, valueAt_set, if_neg (lt_irrefl (0 : ℝ)), valueAt_set,
          if_neg (lt_irrefl (0 : ℝ)), valueAt_nil]
      rw [h0]
      exact iff_of_false (ne_of_gt hv) hfi
    · have hDv : gainEnvelope volume fadeIn fadeOut D D = volume := by
        unfold gainEnvelope
        rw [hsched, valueAt_set, if_neg (not_lt.mpr hD.le), valueAt_set,
          if_neg (not_lt.mpr hD.le), valueAt_nil]
      rw [hDv]
      exact iff_of_false (ne_of_gt hv) hfo

/-- C2 witness: with volume 1, one-second fades and a 4-second output, the
envelope holds the constant volume at t = 2. -/
theorem gain_envelope_witness : gainEnvelope 1 1 1 4 2 = 1 :=
  (gain_envelope_spec 1 1 1 4 (by norm_num) (by norm_num)).2.1 2
    (by norm_num [safeFade]) (by norm_num [safeFade])

end Lingsheng
